import Mathlib

/-!
Verification of the native bank contract
(src/core/executor/src/native_contract/bank.rs).

The contract is embedded shallowly: the `RefCell` state adapter becomes an
explicit association-list store threaded through each call, the `Rc`
invocation context becomes an explicit record, and each operation returns
the full post-state next to its `ProtocolResult` value.  Collaborators that
live outside this repository (the hash function, the contract-address type,
the cycle meter, the state-adapter interface) are modelled from the spec,
as noted on each definition.
-/

namespace Bank

/-- Modelled from the spec: `Hash` from the protocol crate is a fixed-size
hash value; we represent it by its byte sequence. -/
abbrev Hash := List Nat

/-- Modelled from the spec: `Hash::digest` is a pure deterministic hash over
a byte string (the concrete algorithm lives in the protocol crate, outside
this repository); any pure function of the input bytes is faithful to the
spec, which constrains only purity and determinism.  We use an FNV-1a
style fold into a single 64-bit word. -/
def Hash.digest (bs : List Nat) : Hash :=
  [bs.foldl (fun h b => ((h ^^^ b % 256) * 1099511628211) % 2 ^ 64)
    14695981039346656037]

/-- Modelled from the spec: `Hash::from_empty` is the canonical empty hash,
the digest of the empty byte string. -/
def Hash.from_empty : Hash :=
  Hash.digest []

/-- Modelled from the spec: the contract-type tag carried by a contract
address (`ContractType` in the protocol crate); `register` only
distinguishes `Asset` from everything else. -/
inductive ContractType where
  | Asset
  | App
  | Library
deriving Repr, DecidableEq

/-- Modelled from the spec: `ContractAddress` from the protocol crate,
exposing its raw bytes and its contract-type tag. -/
structure ContractAddress where
  bytes : List Nat
  contract_type : ContractType
deriving Repr, DecidableEq

/-- Modelled from the spec: `Balance` is an arbitrary-precision
non-negative integer. -/
abbrev Balance := Nat

/-- The `Asset` record persisted by the bank (protocol crate type, field
set taken from the construction site in `register`, bank.rs lines 70-78). -/
structure Asset where
  name : String
  symbol : String
  supply : Balance
  id : Hash
  manage_contract : ContractAddress
  storage_root : Hash
deriving Repr, DecidableEq

/-- `FixedAsset` (crate::fixed_types) wraps an `Asset` for storage;
`FixedAsset::new` builds it and `.inner` unwraps it. -/
structure FixedAsset where
  inner : Asset
deriving Repr, DecidableEq

/-- `FixedAsset::new`. -/
def FixedAsset.new (a : Asset) : FixedAsset :=
  ⟨a⟩

/-- Modelled from the spec: the state adapter's asset schema is a staged
key/value store keyed by asset id; we represent the visible session
contents as an association list with the most recent staged insert first. -/
abbrev Store := List (Hash × FixedAsset)

/-- Modelled from the spec: `ContractStateAdapter::get` under the asset
schema — look the key up in the (possibly-staged) session contents. -/
def Store.get (s : Store) (id : Hash) : Option FixedAsset :=
  match s with
  | [] => none
  | (k, v) :: rest => if k = id then some v else Store.get rest id

/-- Modelled from the spec: `ContractStateAdapter::contains` under the
asset schema — existence of the key in the session contents. -/
def Store.contains (s : Store) (id : Hash) : Bool :=
  (Store.get s id).isSome

/-- Modelled from the spec: `ContractStateAdapter::insert_cache` — stage an
insert into the uncommitted layer of the session. -/
def Store.insert_cache (s : Store) (id : Hash) (v : FixedAsset) : Store :=
  (id, v) :: s

/-- The error enum of bank.rs (lines 108-121).  `FixedCodec` carries a
decoder error in the source; its payload is irrelevant to the claims. -/
inductive NativeBankContractError where
  | AssetExists (id : Hash)
  | NotFound (id : Hash)
  | InvalidAddress
  | FixedCodec
deriving Repr, DecidableEq

/-- Modelled from the spec: the cycle meter's own resource-exhaustion
error (crate::cycles), raised when usage would exceed the limit. -/
inductive CyclesError where
  | OutOfCycles
deriving Repr, DecidableEq

/-- `ProtocolError` as seen through the bank: either one of the bank's own
errors or an error of the cycle meter, kept as-is (the source converts both
into `ProtocolError` without altering their payload, so the sum preserves
the "propagated, not wrapped" distinction). -/
inductive ProtocolError where
  | bank (e : NativeBankContractError)
  | cycles (e : CyclesError)
deriving Repr, DecidableEq

/-- `CyclesAction` tags for the cycle meter (crate::cycles); the bank only
uses `BankRegister`. -/
inductive CyclesAction where
  | BankRegister
deriving Repr, DecidableEq

/-- Modelled from the spec: the cycle meter's base-cost table is external
and its constants are unspecified; only that a fixed per-action cost is
charged at the configured price matters to the claims. -/
def CyclesAction.base_cost : CyclesAction → Nat
  | .BankRegister => 21000

/-- Modelled from the spec: the incremental cost of an action at a given
unit price, as computed by the cycle-metering collaborator. -/
def cycles_cost (action : CyclesAction) (price : Nat) : Nat :=
  action.base_cost * price

/-- Modelled from the spec: `consume_cycles(action, price, &mut fee, limit)`
adds the incremental cost to the running usage and fails without mutating
further if the resulting usage would exceed the limit. -/
def consume_cycles (action : CyclesAction) (price fee limit : Nat) :
    Except CyclesError Nat :=
  let new_fee := fee + cycles_cost action price
  if limit < new_fee then .error .OutOfCycles else .ok new_fee

/-- Modelled from the spec: the invocation context (`RcInvokeContext`),
restricted to the fields the bank touches: mutable `cycles_used` and
read-only `cycles_price` and `cycles_limit`. -/
structure InvokeContext where
  cycles_used : Nat
  cycles_price : Nat
  cycles_limit : Nat
deriving Repr, DecidableEq

/-- `NativeBankContract` (bank.rs lines 22-26): an immutable chain id and
the shared state-adapter handle.  The handle (`Rc<RefCell<StateAdapter>>`)
is modelled by its identity; the session contents it points to are the
`Store` threaded explicitly through each call. -/
structure NativeBankContract where
  chain_id : Hash
  state_adapter : Nat
deriving Repr, DecidableEq

/-- `NativeBankContract::new`. -/
def NativeBankContract.new (chain_id : Hash) (state_adapter : Nat) :
    NativeBankContract :=
  ⟨chain_id, state_adapter⟩

deriving instance DecidableEq for Except

/-- The full observable outcome of a contract call: the `ProtocolResult`
value together with the registry, the store session and the invocation
context as they stand after the call. -/
structure CallOutcome where
  result : Except ProtocolError Asset
  bank : NativeBankContract
  store : Store
  ictx : InvokeContext
deriving Repr, DecidableEq

/-- The id derivation of `register` (bank.rs lines 57-59):
`Hash::digest` of the chain-id bytes followed by the address bytes. -/
def derive_asset_id (chain_id : Hash) (address : ContractAddress) : Hash :=
  Hash.digest (chain_id ++ address.bytes)

/-- The `Asset` record constructed by `register` (bank.rs lines 70-78):
caller-supplied name, symbol and supply, the derived id, the address as
manage contract, and the canonical empty hash as storage root. -/
def registered_asset (chain_id : Hash) (address : ContractAddress)
    (name symbol : String) (supply : Balance) : Asset :=
  { name := name
    symbol := symbol
    supply := supply
    id := derive_asset_id chain_id address
    manage_contract := address
    storage_root := Hash.from_empty }

/-- `NativeBankContract::register` (bank.rs lines 45-96), with the state
adapter and invocation context passed and returned explicitly. -/
def register (bank : NativeBankContract) (store : Store)
    (ictx : InvokeContext) (address : ContractAddress)
    (name symbol : String) (supply : Balance) : CallOutcome :=
  if address.contract_type ≠ ContractType.Asset then
    ⟨.error (.bank .InvalidAddress), bank, store, ictx⟩
  else
    let asset_id := derive_asset_id bank.chain_id address
    if Store.contains store asset_id then
      ⟨.error (.bank (.AssetExists asset_id)), bank, store, ictx⟩
    else
      let asset := registered_asset bank.chain_id address name symbol supply
      let store2 := Store.insert_cache store asset_id (FixedAsset.new asset)
      match consume_cycles CyclesAction.BankRegister ictx.cycles_price
          ictx.cycles_used ictx.cycles_limit with
      | .error e => ⟨.error (.cycles e), bank, store2, ictx⟩
      | .ok fee =>
          ⟨.ok asset, bank, store2, { ictx with cycles_used := fee }⟩

/-- `NativeBankContract::get_asset` (bank.rs lines 98-105): a pure read of
the asset schema, surfacing `NotFound` when the key is absent.  The source
takes `&self` and an immutable borrow of the adapter, so the registry,
store and context are returned as received. -/
def get_asset (bank : NativeBankContract) (store : Store)
    (ictx : InvokeContext) (id : Hash) : CallOutcome :=
  match Store.get store id with
  | none => ⟨.error (.bank (.NotFound id)), bank, store, ictx⟩
  | some fixed_asset => ⟨.ok fixed_asset.inner, bank, store, ictx⟩

/-! Concrete instances used to witness the theorems below on executable
inputs. -/

/-- A concrete registry instance. -/
def bankW : NativeBankContract := NativeBankContract.new [1, 2] 0

/-- A concrete asset-typed contract address. -/
def addrW : ContractAddress := ⟨[3, 4], ContractType.Asset⟩

/-- A concrete address whose contract-type tag is not `Asset`. -/
def bad_addrW : ContractAddress := ⟨[3, 4], ContractType.App⟩

/-- A concrete invocation context with ample cycle budget. -/
def ctxW : InvokeContext := ⟨5, 2, 100000⟩

/-- A concrete invocation context whose cycle limit is too small for a
`BankRegister` charge. -/
def ctx_poorW : InvokeContext := ⟨5, 2, 10⟩

/-- The asset produced by registering `addrW` on `bankW`. -/
def assetW : Asset := registered_asset bankW.chain_id addrW "Foo" "FOO" 1000

/-- The identifier derived for `addrW` on `bankW`. -/
def idW : Hash := derive_asset_id bankW.chain_id addrW

/-- A store session that already holds `assetW` under `idW`. -/
def storeW : Store := Store.insert_cache [] idW (FixedAsset.new assetW)

/-! Case characterizations of `register`, one per exit path of the source
function; the claim theorems below are assembled from these. -/

theorem register_eq_invalid (bank : NativeBankContract) (store : Store)
    (ictx : InvokeContext) (address : ContractAddress)
    (name symbol : String) (supply : Balance)
    (haddr : address.contract_type ≠ ContractType.Asset) :
    register bank store ictx address name symbol supply =
      ⟨.error (.bank .InvalidAddress), bank, store, ictx⟩ := by
  unfold register
  rw [if_pos haddr]

theorem register_eq_exists (bank : NativeBankContract) (store : Store)
    (ictx : InvokeContext) (address : ContractAddress)
    (name symbol : String) (supply : Balance)
    (haddr : address.contract_type = ContractType.Asset)
    (hc : Store.contains store (derive_asset_id bank.chain_id address) = true) :
    register bank store ictx address name symbol supply =
      ⟨.error (.bank (.AssetExists (derive_asset_id bank.chain_id address))),
       bank, store, ictx⟩ := by
  unfold register
  rw [if_neg (not_not_intro haddr)]
  simp only [hc, if_true]

theorem register_eq_meter_err (bank : NativeBankContract) (store : Store)
    (ictx : InvokeContext) (address : ContractAddress)
    (name symbol : String) (supply : Balance) (e : CyclesError)
    (haddr : address.contract_type = ContractType.Asset)
    (hc : Store.contains store (derive_asset_id bank.chain_id address) = false)
    (hm : consume_cycles CyclesAction.BankRegister ictx.cycles_price
        ictx.cycles_used ictx.cycles_limit = .error e) :
    register bank store ictx address name symbol supply =
      ⟨.error (.cycles e), bank,
       Store.insert_cache store (derive_asset_id bank.chain_id address)
         (FixedAsset.new
           (registered_asset bank.chain_id address name symbol supply)),
       ictx⟩ := by
  unfold register
  rw [if_neg (not_not_intro haddr)]
  simp only [hc, Bool.false_eq_true, if_false, hm]

theorem register_eq_ok (bank : NativeBankContract) (store : Store)
    (ictx : InvokeContext) (address : ContractAddress)
    (name symbol : String) (supply : Balance) (fee : Nat)
    (haddr : address.contract_type = ContractType.Asset)
    (hc : Store.contains store (derive_asset_id bank.chain_id address) = false)
    (hm : consume_cycles CyclesAction.BankRegister ictx.cycles_price
        ictx.cycles_used ictx.cycles_limit = .ok fee) :
    register bank store ictx address name symbol supply =
      ⟨.ok (registered_asset bank.chain_id address name symbol supply), bank,
       Store.insert_cache store (derive_asset_id bank.chain_id address)
         (FixedAsset.new
           (registered_asset bank.chain_id address name symbol supply)),
       { ictx with cycles_used := fee }⟩ := by
  unfold register
  rw [if_neg (not_not_intro haddr)]
  simp only [hc, Bool.false_eq_true, if_false, hm]

theorem consume_cycles_ok_eq (action : CyclesAction) (price fee limit g : Nat)
    (h : consume_cycles action price fee limit = .ok g) :
    g = fee + cycles_cost action price := by
  simp only [consume_cycles] at h
  split at h
  · exact absurd h (by simp)
  · simp only [Except.ok.injEq] at h
    exact h.symm

theorem consume_cycles_err_eq (action : CyclesAction)
    (price fee limit : Nat) (e : CyclesError)
    (h : consume_cycles action price fee limit = .error e) :
    e = CyclesError.OutOfCycles ∧ limit < fee + cycles_cost action price := by
  simp only [consume_cycles] at h
  split at h
  next hl =>
    cases e
    exact ⟨rfl, hl⟩
  · exact absurd h (by simp)

theorem consume_cycles_exceeds (action : CyclesAction) (price fee limit : Nat)
    (h : limit < fee + cycles_cost action price) :
    consume_cycles action price fee limit = .error .OutOfCycles := by
  simp only [consume_cycles]
  rw [if_pos h]

theorem Store.get_insert_self (s : Store) (id : Hash) (v : FixedAsset) :
    Store.get (Store.insert_cache s id v) id = some v := by
  simp [Store.insert_cache, Store.get]

/-- Exhaustive case split on the outcome of `register`, used to assemble
the claim theorems about its error paths. -/
theorem register_cases (bank : NativeBankContract) (store : Store)
    (ictx : InvokeContext) (address : ContractAddress)
    (name symbol : String) (supply : Balance) :
    (address.contract_type ≠ ContractType.Asset ∧
      register bank store ictx address name symbol supply =
        ⟨.error (.bank .InvalidAddress), bank, store, ictx⟩) ∨
    (address.contract_type = ContractType.Asset ∧
      Store.contains store (derive_asset_id bank.chain_id address) = true ∧
      register bank store ictx address name symbol supply =
        ⟨.error (.bank (.AssetExists (derive_asset_id bank.chain_id address))),
         bank, store, ictx⟩) ∨
    (∃ e, address.contract_type = ContractType.Asset ∧
      Store.contains store (derive_asset_id bank.chain_id address) = false ∧
      consume_cycles CyclesAction.BankRegister ictx.cycles_price
        ictx.cycles_used ictx.cycles_limit = .error e ∧
      register bank store ictx address name symbol supply =
        ⟨.error (.cycles e), bank,
         Store.insert_cache store (derive_asset_id bank.chain_id address)
           (FixedAsset.new
             (registered_asset bank.chain_id address name symbol supply)),
         ictx⟩) ∨
    (∃ fee, address.contract_type = ContractType.Asset ∧
      Store.contains store (derive_asset_id bank.chain_id address) = false ∧
      consume_cycles CyclesAction.BankRegister ictx.cycles_price
        ictx.cycles_used ictx.cycles_limit = .ok fee ∧
      register bank store ictx address name symbol supply =
        ⟨.ok (registered_asset bank.chain_id address name symbol supply), bank,
         Store.insert_cache store (derive_asset_id bank.chain_id address)
           (FixedAsset.new
             (registered_asset bank.chain_id address name symbol supply)),
         { ictx with cycles_used := fee }⟩) := by
  by_cases haddr : address.contract_type = ContractType.Asset
  · cases hc : Store.contains store (derive_asset_id bank.chain_id address) with
    | true =>
        exact Or.inr (Or.inl
          ⟨haddr, rfl,
            register_eq_exists bank store ictx address name symbol supply
              haddr hc⟩)
    | false =>
        cases hm : consume_cycles CyclesAction.BankRegister ictx.cycles_price
            ictx.cycles_used ictx.cycles_limit with
        | error e =>
            exact Or.inr (Or.inr (Or.inl
              ⟨e, haddr, rfl, rfl,
                register_eq_meter_err bank store ictx address name symbol
                  supply e haddr hc hm⟩))
        | ok fee =>
            exact Or.inr (Or.inr (Or.inr
              ⟨fee, haddr, rfl, rfl,
                register_eq_ok bank store ictx address name symbol supply fee
                  haddr hc hm⟩))
  · exact Or.inl
      ⟨haddr,
        register_eq_invalid bank store ictx address name symbol supply haddr⟩

/-- Knowing only that `register` succeeded, recover the branch facts and
the full outcome. -/
theorem register_ok_elim (bank : NativeBankContract) (store : Store)
    (ictx : InvokeContext) (address : ContractAddress)
    (name symbol : String) (supply : Balance) (a : Asset)
    (h : (register bank store ictx address name symbol supply).result =
      .ok a) :
    a = registered_asset bank.chain_id address name symbol supply ∧
    consume_cycles CyclesAction.BankRegister ictx.cycles_price
      ictx.cycles_used ictx.cycles_limit =
      .ok (ictx.cycles_used +
        cycles_cost CyclesAction.BankRegister ictx.cycles_price) ∧
    register bank store ictx address name symbol supply =
      ⟨.ok a, bank,
       Store.insert_cache store (derive_asset_id bank.chain_id address)
         (FixedAsset.new a),
       { ictx with cycles_used := ictx.cycles_used +
           cycles_cost CyclesAction.BankRegister ictx.cycles_price }⟩ := by
  rcases register_cases bank store ictx address name symbol supply with
    ⟨_, hr⟩ | ⟨_, _, hr⟩ | ⟨e, _, _, _, hr⟩ | ⟨fee, _, _, hm, hr⟩
  · rw [hr] at h
    exact absurd h (by simp)
  · rw [hr] at h
    exact absurd h (by simp)
  · rw [hr] at h
    exact absurd h (by simp)
  · have hfee := consume_cycles_ok_eq CyclesAction.BankRegister
      ictx.cycles_price ictx.cycles_used ictx.cycles_limit fee hm
    rw [hr] at h
    simp only [Except.ok.injEq] at h
    subst hfee
    subst h
    exact ⟨rfl, hm, hr⟩

/-- C1: a successful `register(ctx, addr, name, symbol, supply)` returns an
Asset whose fields are exactly the supplied name, symbol and supply, the
registering address as manage contract, the derived identifier, and the
canonical empty hash as storage root; the same record is staged into the
store under the derived id, and `get_asset` on that id in the same session
returns it. -/
theorem register_roundtrip (bank : NativeBankContract) (store : Store)
    (ictx : InvokeContext) (address : ContractAddress)
    (name symbol : String) (supply : Balance) (a : Asset)
    (h : (register bank store ictx address name symbol supply).result =
      .ok a) :
    a.name = name ∧ a.symbol = symbol ∧ a.supply = supply ∧
    a.manage_contract = address ∧
    a.id = derive_asset_id bank.chain_id address ∧
    a.storage_root = Hash.from_empty ∧
    Store.get (register bank store ictx address name symbol supply).store
      a.id = some (FixedAsset.new a) ∧
    (get_asset bank (register bank store ictx address name symbol supply).store
      (register bank store ictx address name symbol supply).ictx
      a.id).result = .ok a := by
  rcases register_ok_elim bank store ictx address name symbol supply a h with
    ⟨ha, _, hr⟩
  subst ha
  rw [hr]
  refine ⟨rfl, rfl, rfl, rfl, rfl, rfl, ?_, ?_⟩
  · exact Store.get_insert_self store (derive_asset_id bank.chain_id address)
      (FixedAsset.new
        (registered_asset bank.chain_id address name symbol supply))
  · have hg := Store.get_insert_self store
      (derive_asset_id bank.chain_id address)
      (FixedAsset.new
        (registered_asset bank.chain_id address name symbol supply))
    simp only [get_asset]
    rw [show (registered_asset bank.chain_id address name symbol supply).id =
      derive_asset_id bank.chain_id address from rfl, hg]
    rfl

theorem register_roundtrip_witness :
    (get_asset bankW
      (register bankW [] ctxW addrW "Foo" "FOO" 1000).store
      (register bankW [] ctxW addrW "Foo" "FOO" 1000).ictx
      assetW.id).result = .ok assetW :=
  (register_roundtrip bankW [] ctxW addrW "Foo" "FOO" 1000 assetW
    (by decide)).2.2.2.2.2.2.2

/-- C2: when the derived identifier already has a record in the store and
the address carries the Asset tag (as it must for the identifier to stem
from a prior successful registration), `register` fails with `AssetExists`
carrying that identifier, leaves the context (hence `cycles_used`)
unchanged, and stages no second record. -/
theorem register_asset_exists (bank : NativeBankContract) (store : Store)
    (ictx : InvokeContext) (address : ContractAddress)
    (name symbol : String) (supply : Balance)
    (haddr : address.contract_type = ContractType.Asset)
    (hexists : Store.contains store (derive_asset_id bank.chain_id address) =
      true) :
    register bank store ictx address name symbol supply =
      ⟨.error (.bank (.AssetExists (derive_asset_id bank.chain_id address))),
       bank, store, ictx⟩ :=
  register_eq_exists bank store ictx address name symbol supply haddr hexists

theorem register_asset_exists_witness :
    register bankW storeW ctxW addrW "Foo" "FOO" 1000 =
      ⟨.error (.bank (.AssetExists idW)), bankW, storeW, ctxW⟩ :=
  register_asset_exists bankW storeW ctxW addrW "Foo" "FOO" 1000 rfl
    (by decide)

/-- C3: the identifier of a successfully registered asset is the digest of
the chain-id bytes followed by the address bytes (chain id first, address
second), and the derivation is a pure deterministic function: any
derivation from the same chain id and address yields the same identifier. -/
theorem register_id_derivation (bank : NativeBankContract) (store : Store)
    (ictx : InvokeContext) (address : ContractAddress)
    (name symbol : String) (supply : Balance) (a : Asset)
    (h : (register bank store ictx address name symbol supply).result =
      .ok a) :
    a.id = Hash.digest (bank.chain_id ++ address.bytes) ∧
    ∀ (bank2 : NativeBankContract) (address2 : ContractAddress),
      bank2.chain_id = bank.chain_id → address2 = address →
      derive_asset_id bank2.chain_id address2 = a.id := by
  rcases register_ok_elim bank store ictx address name symbol supply a h with
    ⟨ha, -, -⟩
  subst ha
  refine ⟨rfl, ?_⟩
  intro bank2 address2 hb ha2
  subst ha2
  rw [derive_asset_id, hb]
  rfl

theorem register_id_derivation_witness :
    assetW.id = Hash.digest (bankW.chain_id ++ addrW.bytes) :=
  (register_id_derivation bankW [] ctxW addrW "Foo" "FOO" 1000 assetW
    (by decide)).1

/-- C4: `register` with an address whose contract-type tag is not Asset
fails with `InvalidAddress` and returns the registry, the store and the
context exactly as received: no store write and no cycle charge. -/
theorem register_invalid_address (bank : NativeBankContract) (store : Store)
    (ictx : InvokeContext) (address : ContractAddress)
    (name symbol : String) (supply : Balance)
    (haddr : address.contract_type ≠ ContractType.Asset) :
    register bank store ictx address name symbol supply =
      ⟨.error (.bank .InvalidAddress), bank, store, ictx⟩ :=
  register_eq_invalid bank store ictx address name symbol supply haddr

theorem register_invalid_address_witness :
    register bankW [] ctxW bad_addrW "Foo" "FOO" 1000 =
      ⟨.error (.bank .InvalidAddress), bankW, [], ctxW⟩ :=
  register_invalid_address bankW [] ctxW bad_addrW "Foo" "FOO" 1000
    (by decide)

/-- C5: after a successful `register`, the context holds `cycles_used`
increased by exactly the metered cost of the `BankRegister` action at the
context's `cycles_price`, with `cycles_price` and `cycles_limit`
untouched; the updated usage is part of the returned context. -/
theorem register_cycle_accounting (bank : NativeBankContract) (store : Store)
    (ictx : InvokeContext) (address : ContractAddress)
    (name symbol : String) (supply : Balance) (a : Asset)
    (h : (register bank store ictx address name symbol supply).result =
      .ok a) :
    (register bank store ictx address name symbol supply).ictx =
      { ictx with cycles_used := ictx.cycles_used +
          cycles_cost CyclesAction.BankRegister ictx.cycles_price } := by
  rcases register_ok_elim bank store ictx address name symbol supply a h with
    ⟨-, -, hr⟩
  rw [hr]

theorem register_cycle_accounting_witness :
    (register bankW [] ctxW addrW "Foo" "FOO" 1000).ictx =
      { ctxW with cycles_used := ctxW.cycles_used +
          cycles_cost CyclesAction.BankRegister ctxW.cycles_price } :=
  register_cycle_accounting bankW [] ctxW addrW "Foo" "FOO" 1000 assetW
    (by decide)

/-- C6: when the address check and the existence check pass but the cycle
charge would exceed the context's limit, `register` propagates the meter's
own resource-exhaustion error unwrapped, and the record staged earlier in
the same call is still present in the returned store session. -/
theorem register_cycles_exhausted (bank : NativeBankContract) (store : Store)
    (ictx : InvokeContext) (address : ContractAddress)
    (name symbol : String) (supply : Balance)
    (haddr : address.contract_type = ContractType.Asset)
    (hnew : Store.contains store (derive_asset_id bank.chain_id address) =
      false)
    (hlim : ictx.cycles_limit < ictx.cycles_used +
      cycles_cost CyclesAction.BankRegister ictx.cycles_price) :
    register bank store ictx address name symbol supply =
      ⟨.error (.cycles .OutOfCycles), bank,
       Store.insert_cache store (derive_asset_id bank.chain_id address)
         (FixedAsset.new
           (registered_asset bank.chain_id address name symbol supply)),
       ictx⟩ :=
  register_eq_meter_err bank store ictx address name symbol supply
    .OutOfCycles haddr hnew
    (consume_cycles_exceeds CyclesAction.BankRegister ictx.cycles_price
      ictx.cycles_used ictx.cycles_limit hlim)

theorem register_cycles_exhausted_witness :
    register bankW [] ctx_poorW addrW "Foo" "FOO" 1000 =
      ⟨.error (.cycles .OutOfCycles), bankW, storeW, ctx_poorW⟩ :=
  register_cycles_exhausted bankW [] ctx_poorW addrW "Foo" "FOO" 1000 rfl
    rfl (by decide)

/-- C7: `get_asset` fails with `NotFound` carrying the queried identifier
exactly when the store lookup yields no record, and returns the stored
record when the lookup yields one. -/
theorem get_asset_spec (bank : NativeBankContract) (store : Store)
    (ictx : InvokeContext) (id : Hash) :
    ((get_asset bank store ictx id).result =
        .error (.bank (.NotFound id)) ↔ Store.get store id = none) ∧
    ∀ fa, Store.get store id = some fa →
      (get_asset bank store ictx id).result = .ok fa.inner := by
  cases hg : Store.get store id with
  | none =>
      refine ⟨by simp [get_asset, hg], ?_⟩
      intro fa hfa
      exact absurd hfa (by simp)
  | some fa0 =>
      refine ⟨by simp [get_asset, hg], ?_⟩
      intro fa hfa
      simp only [Option.some.injEq] at hfa
      subst hfa
      simp [get_asset, hg]

theorem get_asset_spec_witness :
    (get_asset bankW [] ctxW idW).result =
      .error (.bank (.NotFound idW)) :=
  (get_asset_spec bankW [] ctxW idW).1.mpr rfl

/-- C8: `get_asset` is read-only: whatever the result, the registry, the
store session and the invocation context come back exactly as received. -/
theorem get_asset_frame (bank : NativeBankContract) (store : Store)
    (ictx : InvokeContext) (id : Hash) :
    (get_asset bank store ictx id).bank = bank ∧
    (get_asset bank store ictx id).store = store ∧
    (get_asset bank store ictx id).ictx = ictx := by
  cases hg : Store.get store id <;> simp [get_asset, hg]

/-- C9: neither `register` nor `get_asset` changes the registry's own
fields (the chain id and the state-adapter handle): the component is
stateless across calls. -/
theorem registry_stateless (bank : NativeBankContract) (store : Store)
    (ictx : InvokeContext) (address : ContractAddress)
    (name symbol : String) (supply : Balance) (id : Hash) :
    (register bank store ictx address name symbol supply).bank = bank ∧
    (get_asset bank store ictx id).bank = bank := by
  constructor
  · rcases register_cases bank store ictx address name symbol supply with
      ⟨-, hr⟩ | ⟨-, -, hr⟩ | ⟨e, -, -, -, hr⟩ | ⟨fee, -, -, -, hr⟩ <;>
      rw [hr]
  · cases hg : Store.get store id <;> simp [get_asset, hg]

/-- C10: on every failing path of `register` — invalid address, existing
asset, or a failure of the cycle meter itself — the invocation context
(in particular `cycles_used`) is returned unchanged: the charge happens on
a local copy and is written back only after the meter succeeds. -/
theorem register_error_preserves_ctx (bank : NativeBankContract)
    (store : Store) (ictx : InvokeContext) (address : ContractAddress)
    (name symbol : String) (supply : Balance) (e : ProtocolError)
    (h : (register bank store ictx address name symbol supply).result =
      .error e) :
    (register bank store ictx address name symbol supply).ictx = ictx := by
  rcases register_cases bank store ictx address name symbol supply with
    ⟨-, hr⟩ | ⟨-, -, hr⟩ | ⟨e2, -, -, -, hr⟩ | ⟨fee, -, -, -, hr⟩
  · rw [hr]
  · rw [hr]
  · rw [hr]
  · rw [hr] at h
    exact absurd h (by simp)

theorem register_error_preserves_ctx_witness :
    (register bankW [] ctx_poorW addrW "Foo" "FOO" 1000).ictx = ctx_poorW :=
  register_error_preserves_ctx bankW [] ctx_poorW addrW "Foo" "FOO" 1000
    (.cycles .OutOfCycles) (by decide)

end Bank
